import Mathlib

/-!
Shallow embedding of the skymsg client (src/pkg/skymsg/client.go) of the
ayuryshev/skywire repository, together with theorems settling the frozen
claims about its specification.

The Go file client.go is embedded definition by definition.  Helper code
that lives outside src/ (the frame codec, the methods of the Channel type) is
modelled from the specification and marked as such in doc comments.
Machine integers (uint16 channel IDs) are Nat with explicit wrap mod 2^16
where the Go arithmetic wraps.  Go runtime faults (array index out of
range, method call on a nil pointer that dereferences its receiver) are
modelled as explicit panic outcomes: array accesses return Option results
where none is the out-of-range panic.
-/

namespace Skymsg

/-- A byte of a frame payload or of a public key. -/
abbrev Byte := Nat

/-- cipher.PubKey: per spec section 3 a 32-byte value; modelled as a list of
bytes.  Equality is byte-wise, matching the Go value comparison. -/
abbrev PubKey := List Byte

/-- The zero value cipher.PubKey, returned by checkRequest on failure. -/
def zeroPK : PubKey := List.replicate 32 0

/-- Frame types of the wire protocol (spec section 6: Request, Accept, Close, Data). -/
inductive FrameType
  | Request
  | Accept
  | Close
  | Data
deriving DecidableEq

/-- A decoded frame: type, 16-bit channel ID, payload bytes.  The frame codec
file is not under src/; per spec section 4.1 a frame disassembles into exactly
these three parts. -/
structure Frame where
  ft : FrameType
  id : Nat
  payload : List Byte
deriving DecidableEq

/-- math.MaxUint16, the declared length of the Link.chans array in client.go
(`chans [math.MaxUint16]*Channel`): 65535 slots, indices 0 .. 65534. -/
def maxUint16 : Nat := 65535

/-- The fields of the Channel type that client.go reads: the two public keys and the
channel ID fixed at creation, and the doneness flag queried by IsDone.  The
Channel method bodies are not under src/. -/
structure Channel where
  localPK : PubKey
  remotePK : PubKey
  id : Nat
  done : Bool
deriving DecidableEq

/-- NewChannel(conn, local, remote, id) from the channel file (not under src/):
a fresh channel starts not-done (spec: a dialed channel starts Handshaking, an
accepted one Open; neither is Closed).  The conn argument carries no state
observed by the claims and is dropped. -/
def NewChannel (localPK remotePK : PubKey) (id : Nat) : Channel :=
  { localPK := localPK, remotePK := remotePK, id := id, done := false }

/-- Link from client.go: the net.Conn is abstracted away; local and remoteSrv
public keys, the nextID cursor (uint16) and the chans array of length
maxUint16.  The array is modelled as a total function on Nat whose indices
at and above maxUint16 do not exist: every access guards the bound. -/
structure Link where
  localPK : PubKey
  remoteSrv : PubKey
  nextID : Nat
  chans : Nat → Option Channel

/-- NewLink(conn, remote) from client.go: sets the conn and remoteSrv and
nextID = 0.  The local field is never assigned anywhere in client.go, so it
keeps the Go zero value; the chans array starts all nil. -/
def NewLink (remote : PubKey) : Link :=
  { localPK := zeroPK, remoteSrv := remote, nextID := 0, chans := fun _ => none }

/-- The liveness test the code performs on a slot value:
ch != nil && !ch.IsDone(). -/
def chanLive : Option Channel → Bool
  | none => false
  | some ch => !ch.done

/-- Link.delChan from client.go: l.chans[id] = nil.  Returns none when the Go
array index faults (id out of the 0 .. maxUint16-1 range). -/
def Link.delChan (l : Link) (id : Nat) : Option Link :=
  if id < maxUint16 then
    some { l with chans := fun j => if j = id then none else l.chans j }
  else none

/-- Link.setChan from client.go: l.chans[id] = ch, returning ch.  Returns none
when the Go array index faults. -/
def Link.setChan (l : Link) (id : Nat) (ch : Channel) : Option Link :=
  if id < maxUint16 then
    some { l with chans := fun j => if j = id then some ch else l.chans j }
  else none

/-- Link.getChan from client.go: reads ch := l.chans[id] and computes
ok := ch != nil && !ch.IsDone().  Returns none when the Go array index
faults. -/
def Link.getChan (l : Link) (id : Nat) : Option (Option Channel × Bool) :=
  if id < maxUint16 then
    some (l.chans id, chanLive (l.chans id))
  else none

/-- Modelled from the spec: isEven, called by checkRequest, is defined in a
frame helper file that is not under src/.  Spec section 3 parity convention:
an ID is even iff its low bit is zero. -/
def isEven (id : Nat) : Bool := id % 2 == 0

/-- Modelled from the spec: splitPKs, called by checkRequest, is defined in a
file that is not under src/.  Spec section 6: a Request payload is exactly 64
bytes, initiator key then responder key; on any other length the split fails
with zero keys. -/
def splitPKs (p : List Byte) : PubKey × PubKey × Bool :=
  if p.length = 64 then (p.take 32, p.drop 32, true) else (zeroPK, zeroPK, false)

/-- checkRequest from client.go: rejects even IDs (server-initiated channels
must be odd), splits the payload, and rejects when the split fails or the
responder key is not the local key. -/
def checkRequest (localPK : PubKey) (id : Nat) (p : List Byte) : PubKey × Bool :=
  if isEven id then (zeroPK, false)
  else if (splitPKs p).2.2 = false ∨ ¬(splitPKs p).2.1 = localPK then (zeroPK, false)
  else ((splitPKs p).1, true)

/-- MakeFrame from the frame file (not under src/): assembles a frame from its
parts; client.go calls it only with CloseType, an id, and the one-byte payload 0. -/
def MakeFrame (ft : FrameType) (id : Nat) (p : List Byte) : Frame :=
  { ft := ft, id := id, payload := p }

/-- Outcome of Link.addChan.  ok: the for-loop broke and a channel on the next
even ID was returned; ctxErr: the select saw ctx.Done() and addChan returned
ctx.Err(); panics: the array read l.chans[l.nextID] faulted; loops: the fuel
ran out with the loop still running, witnessing that the Go loop has not
terminated within that many iterations. -/
inductive AddChanResult
  | ok (ch : Channel) (l2 : Link)
  | ctxErr (l2 : Link)
  | panics
  | loops
deriving Inhabited

/-- Link.addChan from client.go, fuel-indexed.  The Go loop: while the slot at
nextID holds a live channel, advance nextID by 2 (uint16 wrap) and poll
ctx.Done(); once a free slot is found, take id := nextID, advance nextID by 2,
and return NewChannel(l.Conn, l.local, clientPK, id) without writing anything
into the chans array.  ctxDone i tells whether the context is done at the
i-th poll. -/
def Link.addChanLoop (l : Link) (ctxDone : Nat → Bool) (clientPK : PubKey) :
    Nat → AddChanResult
  | 0 => .loops
  | fuel + 1 =>
    if l.nextID < maxUint16 then
      if chanLive (l.chans l.nextID) then
        if ctxDone 0 then .ctxErr { l with nextID := (l.nextID + 2) % 65536 }
        else Link.addChanLoop { l with nextID := (l.nextID + 2) % 65536 }
          (fun i => ctxDone (i + 1)) clientPK fuel
      else
        .ok (NewChannel l.localPK clientPK l.nextID)
          { l with nextID := (l.nextID + 2) % 65536 }
    else .panics

/-- Modelled from the spec: Channel.Handshake is not under src/.  Per spec
section 4.4 (Dial), it emits a Request frame on the ID of the channel with payload
local_pk then remote_pk, and then waits for Accept or Close. -/
def handshakeFrames (ch : Channel) : List Frame :=
  [MakeFrame .Request ch.id (ch.localPK ++ ch.remotePK)]

/-- Outcome of Link.Dial: on ok it carries the channel, the link state after
allocation, and the frames the handshake sends. -/
inductive DialResult
  | ok (ch : Channel) (l2 : Link) (sent : List Frame)
  | ctxErr (l2 : Link)
  | panics
  | loops

/-- Link.Dial from client.go: addChan then ch.Handshake(ctx).  The link state
after addChan is carried so the channel table at handshake time is visible. -/
def Link.Dial (l : Link) (ctxDone : Nat → Bool) (clientPK : PubKey) (fuel : Nat) :
    DialResult :=
  match l.addChanLoop ctxDone clientPK fuel with
  | .ok ch l2 => .ok ch l2 (handshakeFrames ch)
  | .ctxErr l2 => .ctxErr l2
  | .panics => .panics
  | .loops => .loops

/-- Result of handling one received frame in the loop of Link.Serve: the link state
after the iteration, the frames written to the connection by the loop body,
the channels sent on the accept Go-channel, the receiver value of the
ch.AwaitRead(f) call when the loop body reached it (outer none: AwaitRead was
never invoked; some none: invoked on a nil pointer), and whether the iteration
faulted (array index out of range, or nil-pointer dereference inside
AwaitRead). -/
structure StepResult where
  link : Link
  writes : List Frame
  accepted : List Channel
  awaitReadOn : Option (Option Channel)
  panicked : Bool

/-- The tail of the Link.Serve loop body from client.go: the statement
if the call ch.AwaitRead(f) yields false then l.delChan(id), where ch is the (possibly stale, possibly
nil) value obtained from getChan earlier in the iteration.  The body of
Channel.AwaitRead is not under src/, so its boolean result is the parameter
ar; invoking it on a nil receiver dereferences the receiver and is a Go
nil-pointer panic.  Per spec section 3 invariant (i), a Closed channel emits
no further frames on its ID, so AwaitRead contributes no writes here. -/
def awaitPhase (l : Link) (ch : Option Channel) (ar : Channel → Frame → Bool)
    (f : Frame) (ws : List Frame) (acc : List Channel) : StepResult :=
  match ch with
  | none => { link := l, writes := ws, accepted := acc, awaitReadOn := some none, panicked := true }
  | some c =>
    if ar c f then
      { link := l, writes := ws, accepted := acc, awaitReadOn := some (some c), panicked := false }
    else
      match l.delChan f.id with
      | some l2 =>
        { link := l2, writes := ws, accepted := acc, awaitReadOn := some (some c), panicked := false }
      | none =>
        { link := l, writes := ws, accepted := acc, awaitReadOn := some (some c), panicked := true }

/-- One iteration of the Link.Serve for-loop from client.go, handling one
received frame f: ft, id, p := f.Disassemble(); ch, ok := l.getChan(id); when
!ok, delChan(id) and switch on ft -- a Request is validated by checkRequest
and either answered with one Close frame or installed via setChan and sent to
the accept Go-channel (with no continue after it, so control falls through to
the AwaitRead tail with the stale ch); Close is ignored; any other type is
answered with one Close frame.  When ok, control goes straight to the
AwaitRead tail. -/
def Link.serveStep (l : Link) (ar : Channel → Frame → Bool) (f : Frame) : StepResult :=
  match l.getChan f.id with
  | none => { link := l, writes := [], accepted := [], awaitReadOn := none, panicked := true }
  | some (ch, ok) =>
    if ok then
      awaitPhase l ch ar f [] []
    else
      match l.delChan f.id with
      | none => { link := l, writes := [], accepted := [], awaitReadOn := none, panicked := true }
      | some l1 =>
        match f.ft with
        | .Request =>
          if (checkRequest l.localPK f.id f.payload).2 then
            match l1.setChan f.id
                (NewChannel l.localPK (checkRequest l.localPK f.id f.payload).1 f.id) with
            | some l2 =>
              awaitPhase l2 ch ar f []
                [NewChannel l.localPK (checkRequest l.localPK f.id f.payload).1 f.id]
            | none =>
              { link := l1, writes := [], accepted := [], awaitReadOn := none, panicked := true }
          else
            { link := l1, writes := [MakeFrame .Close f.id [0]], accepted := [],
              awaitReadOn := none, panicked := false }
        | .Close =>
          { link := l1, writes := [], accepted := [], awaitReadOn := none, panicked := false }
        | _ =>
          { link := l1, writes := [MakeFrame .Close f.id [0]], accepted := [],
            awaitReadOn := none, panicked := false }

/-- The links map of the client (map[cipher.PubKey]*Link), modelled as an
association list with unique keys; insertion replaces an existing binding. -/
def LinksMap := List (PubKey × Link)

/-- Map lookup: c.links[pk].  A missing key yields none (the Go zero value nil
with ok = false). -/
def mapGet (m : LinksMap) (k : PubKey) : Option Link :=
  match m with
  | [] => none
  | (k2, v) :: rest => if k2 = k then some v else mapGet rest k

/-- Map store: c.links[pk] = l, replacing any existing binding for pk. -/
def mapInsert (m : LinksMap) (k : PubKey) (v : Link) : LinksMap :=
  match m with
  | [] => [(k, v)]
  | (k2, v2) :: rest => if k2 = k then (k, v) :: rest else (k2, v2) :: mapInsert rest k v

/-- len(c.links). -/
def mapLen (m : LinksMap) : Nat := m.length

/-- The directory entry of a server as client.go consumes it: entry.Static and
entry.Server.Address; the address is consumed only by net.Dial, which is
abstracted into the connect oracle, so only the static key is carried. -/
structure ServerEntry where
  static : PubKey
deriving DecidableEq

/-- The directory entry of a client as client.go consumes it:
entry.Client.DelegatedServers. -/
structure ClientEntry where
  delegatedServers : List PubKey
deriving DecidableEq

/-- The errors client.go can surface from the paths the claims quantify over.
The package defines exactly ErrNoSrv, ErrRejected, ErrChannelClosed,
ErrDeadlineExceeded and ErrClientClosed; errEntryLookup stands for the
wrapped fmt.Errorf of a failed discovery lookup.  There is no exhausted-IDs
constructor because the package defines no such error. -/
inductive GoError
  | errNoSrv
  | errRejected
  | errChannelClosed
  | errDeadlineExceeded
  | errClientClosed
  | errEntryLookup
deriving DecidableEq

/-- Result of Client.findLink from client.go: ret l is the pair (l, nil)
returned to the caller, where l may be the nil link (none); err carries a
non-nil error. -/
inductive FindLinkResult
  | ret (l : Option Link)
  | err (e : GoError)

/-- The first loop of Client.findLink: for each srvPK, if l, ok :=
c.links[srvPK] has !ok, return (l, nil) -- l being the zero value nil.  A
some result is the returned link value; none means the loop fell through. -/
def findLinkLoop1 (links : LinksMap) : List PubKey → Option (Option Link)
  | [] => none
  | pk :: rest =>
    match mapGet links pk with
    | some _ => findLinkLoop1 links rest
    | none => some none

/-- The second loop of Client.findLink: look each srvPK up in discovery
(entryOf oracle; an error aborts with the wrapped lookup error), dial it
(connect oracle, modelling newLink; a failure logs and continues), store a
successful link in the map and return it.  Falling off the end returns
ErrNoSrv.  Also accumulates the servers a dial was attempted to. -/
def findLinkLoop2 (links : LinksMap) (entryOf : PubKey → Option ServerEntry)
    (connect : ServerEntry → Option Link) :
    List PubKey → FindLinkResult × LinksMap × List PubKey
  | [] => (.err .errNoSrv, links, [])
  | pk :: rest =>
    match entryOf pk with
    | none => (.err .errEntryLookup, links, [])
    | some entry =>
      match connect entry with
      | none =>
        match findLinkLoop2 links entryOf connect rest with
        | (r, m, dialed) => (r, m, pk :: dialed)
      | some link => (.ret (some link), mapInsert links link.remoteSrv link, [pk])

/-- Client.findLink from client.go: the first loop over srvPKs returns the map
value for the first key that is NOT in the map; only when every srvPK is
already linked does the second loop run and dial.  The last component lists
the servers the call dialed. -/
def findLink (links : LinksMap) (entryOf : PubKey → Option ServerEntry)
    (connect : ServerEntry → Option Link) (srvPKs : List PubKey) :
    FindLinkResult × LinksMap × List PubKey :=
  match findLinkLoop1 links srvPKs with
  | some l => (.ret l, links, [])
  | none => findLinkLoop2 links entryOf connect srvPKs

/-- The loop of Client.InitiateLinks from client.go: for each available server
entry, first break when len(c.links) > n, else dial it (connect oracle,
modelling newLink; a failure logs and continues) and store the link under
link.remoteSrv. -/
def initiateLoop (connect : ServerEntry → Option Link) (n : Nat) :
    List ServerEntry → LinksMap → LinksMap
  | [], links => links
  | e :: rest, links =>
    if n < mapLen links then links
    else
      match connect e with
      | none => initiateLoop connect n rest links
      | some link => initiateLoop connect n rest (mapInsert links link.remoteSrv link)

/-- Client.InitiateLinks from client.go: fetch the available servers (the
Option models the AvailableServers call failing), run the dialing loop, fail
if the map is empty, then publish the discovery entry (updOk models
updateDiscEntry succeeding).  On success the resulting links map is
returned. -/
def InitiateLinks (connect : ServerEntry → Option Link) (updOk : Bool) (n : Nat)
    (entries : Option (List ServerEntry)) (links : LinksMap) : Option LinksMap :=
  match entries with
  | none => none
  | some es =>
    if mapLen (initiateLoop connect n es links) = 0 then none
    else if updOk then some (initiateLoop connect n es links) else none

/-- Outcome of Client.Dial: linkDial l means the call reached
link.Dial(ctx, remoteClient) on the link value l returned by findLink (none
is the nil link, on which the method call faults); err is an early error
return. -/
inductive DialOutcome
  | linkDial (l : Option Link)
  | err (e : GoError)

/-- The client state the claims observe: its key, the links map, and whether
the accept Go-channel has been closed (sync.Once around close(c.accept)). -/
structure ClientSt where
  pk : PubKey
  links : LinksMap
  acceptClosed : Bool

/-- Client.Dial from client.go: look up the entry of the remote client (entryRes
models the dc.Entry result), fail with ErrNoSrv when it lists no delegated
servers, else run findLink and hand its link to link.Dial.  Returns the
outcome and the links map after the call. -/
def clientDial (c : ClientSt) (entryRes : Option ClientEntry)
    (entryOf : PubKey → Option ServerEntry) (connect : ServerEntry → Option Link) :
    DialOutcome × LinksMap :=
  match entryRes with
  | none => (.err .errEntryLookup, c.links)
  | some entry =>
    if entry.delegatedServers.length = 0 then (.err .errNoSrv, c.links)
    else
      match findLink c.links entryOf connect entry.delegatedServers with
      | (.ret l, links2, _) => (.linkDial l, links2)
      | (.err e, links2, _) => (.err e, links2)

/-- Client.Close from client.go: close every link, reset the links map to a
fresh empty map, close the accept Go-channel under the sync.Once, and return
nil unconditionally. -/
def clientClose (c : ClientSt) : ClientSt × Option GoError :=
  ({ c with links := [], acceptClosed := true }, none)

/-- k successive calls of Client.Close starting from c (state only). -/
def closeIter (c : ClientSt) : Nat → ClientSt
  | 0 => c
  | k + 1 => (clientClose (closeIter c k)).1

/-! Concrete fixtures used by the theorems below. -/

/-- A concrete public key. -/
def pkA : PubKey := List.replicate 32 1

/-- A concrete public key distinct from pkA. -/
def pkB : PubKey := List.replicate 32 2

/-- A concrete public key distinct from pkA and pkB. -/
def pkC : PubKey := List.replicate 32 3

/-- A concrete initiator public key for Request payloads. -/
def pkInit : PubKey := List.replicate 32 9

/-- An AwaitRead oracle that always reports false. -/
def arFalse : Channel → Frame → Bool := fun _ _ => false

/-- A context that is never cancelled. -/
def ctxNever : Nat → Bool := fun _ => false

/-- A context that is already cancelled at the first poll. -/
def ctxNow : Nat → Bool := fun _ => true

/-- A newLink oracle on which every dial succeeds, yielding NewLink of the
static key of the entry, exactly as newLink in client.go does. -/
def connectAll : ServerEntry → Option Link := fun e => some (NewLink e.static)

/-- A discovery oracle that resolves every server key to an entry with that
static key. -/
def entryOfAll : PubKey → Option ServerEntry := fun pk => some { static := pk }

/-- A link to server pkA that has already dialed twice (nextID = 4), so a
freshly dialed replacement is observably different. -/
def linkA : Link := { localPK := zeroPK, remoteSrv := pkA, nextID := 4, chans := fun _ => none }

/-- A links map holding exactly the link to server pkA. -/
def linksA : LinksMap := [(pkA, linkA)]

/-- A valid inbound Request frame: odd ID 1, 64-byte payload pkInit then the
local (zero-valued) key. -/
def reqFrame : Frame := { ft := .Request, id := 1, payload := pkInit ++ zeroPK }

/-- C4: the claim says the channel table has a slot for every 16-bit ID
(capacity 2^16) so lookups, stores and deletes at the ID of any received frame,
including 65535, are in bounds.  The code declares chans with length
math.MaxUint16 = 65535, so every access at ID 65535 is out of range: getChan,
delChan and setChan all fault there, and the Serve iteration for any frame
with ID 65535 panics before writing anything. -/
theorem C4_table_access_at_65535_faults :
    ∀ (l : Link) (ar : Channel → Frame → Bool) (ft : FrameType) (p : List Byte) (ch : Channel),
      l.getChan 65535 = none ∧ l.delChan 65535 = none ∧ l.setChan 65535 ch = none ∧
      (l.serveStep ar { ft := ft, id := 65535, payload := p }).panicked = true ∧
      (l.serveStep ar { ft := ft, id := 65535, payload := p }).writes = [] := by
  intro l ar ft p ch
  refine ⟨?_, ?_, ?_, ?_, ?_⟩ <;>
    simp [Link.getChan, Link.delChan, Link.setChan, Link.serveStep, maxUint16]

/-- Every call sequence of Client.Close collapses to the canonical closed
state: links emptied, accept queue closed, pk kept. -/
theorem closeIter_succ_eq (c : ClientSt) :
    ∀ k, closeIter c (k + 1) = { pk := c.pk, links := [], acceptClosed := true } := by
  intro k
  induction k with
  | zero => rfl
  | succ n ih =>
    show (clientClose (closeIter c (n + 1))).1 = _
    rw [ih]
    rfl

/-- C10: calling Client.Close k+1 times behaves as a single call: every call,
including calls on an already-closed client, returns success (nil), repeated
calls collapse to the first, and calls after the first leave the state
unchanged. -/
theorem C10_close_idempotent :
    ∀ (c : ClientSt) (k : Nat),
      (clientClose (closeIter c k)).2 = none ∧
      closeIter c (k + 1) = closeIter c 1 ∧
      (clientClose (closeIter c (k + 1))).1 = closeIter c (k + 1) := by
  intro c k
  refine ⟨rfl, ?_, ?_⟩
  · rw [closeIter_succ_eq c k, closeIter_succ_eq c 0]
  · rw [closeIter_succ_eq c k]
    rfl

/-- C9: Client.Dial on a peer whose directory entry lists zero delegated
servers fails with ErrNoSrv and leaves the links map unchanged. -/
theorem C9_dial_no_delegated_servers :
    ∀ (c : ClientSt) (entry : ClientEntry) (entryOf : PubKey → Option ServerEntry)
      (connect : ServerEntry → Option Link),
      entry.delegatedServers = [] →
      clientDial c (some entry) entryOf connect = (.err .errNoSrv, c.links) := by
  intro c entry eo cn h
  simp [clientDial, h]

/-- Witness for C9 at a concrete client and empty delegated-server list. -/
theorem C9_witness :
    ClientEntry.delegatedServers { delegatedServers := [] } = [] ∧
    clientDial { pk := pkC, links := linksA, acceptClosed := false }
        (some { delegatedServers := [] }) entryOfAll connectAll =
      (.err .errNoSrv, linksA) :=
  ⟨rfl, C9_dial_no_delegated_servers
    { pk := pkC, links := linksA, acceptClosed := false }
    { delegatedServers := [] } entryOfAll connectAll rfl⟩

/-- C2: the claim says a locally initiated dial stores the new Handshaking
channel in the table at the allocated ID before the Request frame is sent.
Evaluating Link.Dial on a fresh link: addChan allocates ID 0 and returns the
channel without storing it (the table after allocation equals the table
before, slot 0 still nil), and the handshake then sends the Request frame
referencing ID 0 while the slot is empty. -/
theorem C2_dial_sends_request_with_empty_table_slot :
    Link.Dial (NewLink pkA) ctxNever pkB 1 =
      .ok (NewChannel zeroPK pkB 0) { NewLink pkA with nextID := 2 }
        [MakeFrame .Request 0 (zeroPK ++ pkB)] ∧
    ({ NewLink pkA with nextID := 2 } : Link).chans 0 = none ∧
    (∀ j, ({ NewLink pkA with nextID := 2 } : Link).chans j = (NewLink pkA).chans j) :=
  ⟨rfl, rfl, fun _ => rfl⟩

/-- C6: the claim says that after delivering a newly created channel for a
valid Request to the accept queue, the demultiplexer does not call AwaitRead
on the stale nil value from the failed table lookup.  Evaluating the Serve
iteration on a valid Request at the empty slot 1 of a fresh link: the new
channel is delivered, and then AwaitRead IS invoked with the stale nil
receiver (awaitReadOn = some none), a nil-pointer panic. -/
theorem C6_awaitRead_called_on_nil :
    ((NewLink pkA).serveStep arFalse reqFrame).awaitReadOn = some none ∧
    ((NewLink pkA).serveStep arFalse reqFrame).panicked = true ∧
    ((NewLink pkA).serveStep arFalse reqFrame).accepted = [NewChannel zeroPK pkInit 1] :=
  ⟨rfl, rfl, rfl⟩

/-- C3: the claim says that when at least one of the delegated servers of the peer
already has a link, dial uses that existing link (not nil, no new dial).
Evaluating findLink: with servers [pkB, pkA] and only pkA linked, the first
loop returns the nil link for pkB (the condition is !ok, inverted), nothing
is dialed, and Client.Dial then proceeds to call link.Dial on nil; with
servers [pkA] (already linked), the first loop skips it and the second loop
dials a brand-new link to pkA, replacing the existing one. -/
theorem C3_findLink_returns_nil_and_redials :
    findLink linksA entryOfAll connectAll [pkB, pkA] = (.ret none, linksA, []) ∧
    findLink linksA entryOfAll connectAll [pkA] =
      (.ret (some (NewLink pkA)), [(pkA, NewLink pkA)], [pkA]) ∧
    (NewLink pkA).nextID = 0 ∧ linkA.nextID = 4 ∧
    clientDial { pk := pkC, links := linksA, acceptClosed := false }
        (some { delegatedServers := [pkB, pkA] }) entryOfAll connectAll =
      (.linkDial none, linksA) :=
  ⟨rfl, rfl, rfl, rfl, rfl⟩

/-- C8: the claim says a successful InitiateLinks(n) with n at least 1 leaves
at most n links.  Evaluating the code with n = 1, three available servers and
every dial succeeding: the loop breaks only when len(links) > n, so it
establishes 2 = n + 1 links and the call succeeds. -/
theorem C8_initiate_links_establishes_n_plus_one :
    InitiateLinks connectAll true 1
        (some [{ static := pkA }, { static := pkB }, { static := pkC }]) [] =
      some [(pkA, NewLink pkA), (pkB, NewLink pkB)] ∧
    mapLen [(pkA, NewLink pkA), (pkB, NewLink pkB)] = 2 ∧
    1 < 2 :=
  ⟨rfl, rfl, by decide⟩

/-- A channel that is alive (not done), occupying a slot. -/
def liveStub : Channel := { localPK := zeroPK, remotePK := zeroPK, id := 0, done := false }

/-- A link on which every even-ID slot (all 2^15 of them) holds a live
channel: the exhaustion state of claim C1. -/
def exhaustedLink : Link :=
  { localPK := zeroPK, remoteSrv := pkA, nextID := 0,
    chans := fun i => if i % 2 = 0 then some liveStub else none }

/-- On a link whose even slots are all live, the addChan scan (which steps by
2 from an even cursor with no wrap detection) never breaks: with an
uncancelled context it is still looping after any number of iterations. -/
theorem addChanLoop_all_even_live_loops (pk : PubKey) :
    ∀ (fuel : Nat) (l : Link), l.nextID % 2 = 0 → l.nextID < 65536 →
      (∀ i, i % 2 = 0 → i < 65536 → chanLive (l.chans i) = true) →
      l.addChanLoop ctxNever pk fuel = .loops := by
  intro fuel
  induction fuel with
  | zero => intro l _ _ _; rfl
  | succ n ih =>
    intro l he hlt hall
    have h1 : l.nextID < maxUint16 := by unfold maxUint16; omega
    have h2 : chanLive (l.chans l.nextID) = true := hall _ he hlt
    unfold Link.addChanLoop
    rw [if_pos h1, if_pos h2]
    show Link.addChanLoop _ _ pk n = .loops
    refine ih _ ?_ ?_ hall
    · show (l.nextID + 2) % 65536 % 2 = 0
      omega
    · show (l.nextID + 2) % 65536 < 65536
      omega

/-- All even slots live implies the cursor slot for exhaustedLink is live. -/
theorem exhaustedLink_even_live :
    ∀ i, i % 2 = 0 → i < 65536 → chanLive (exhaustedLink.chans i) = true := by
  intro i hi _
  simp [exhaustedLink, chanLive, hi, liveStub]

/-- C1: the claim says that with all 2^15 even IDs occupied by live channels,
ID allocation (and hence the next dial) fails with ExhaustedChannelIDs rather
than blocking or looping.  Evaluating the code on exhaustedLink: with an
uncancelled context, addChan and Dial are still looping after any number of
iterations (they never return), and with a cancelled context addChan returns
ctx.Err(); the package defines no ExhaustedChannelIDs error at all. -/
theorem C1_exhausted_even_ids_loops_not_error :
    (∀ fuel, exhaustedLink.addChanLoop ctxNever pkB fuel = .loops) ∧
    (∀ fuel, Link.Dial exhaustedLink ctxNever pkB fuel = .loops) ∧
    (∀ fuel, exhaustedLink.addChanLoop ctxNow pkB (fuel + 1) =
      .ctxErr { exhaustedLink with nextID := 2 }) := by
  have hloops : ∀ fuel, exhaustedLink.addChanLoop ctxNever pkB fuel = .loops := fun fuel =>
    addChanLoop_all_even_live_loops pkB fuel exhaustedLink rfl (by decide)
      exhaustedLink_even_live
  refine ⟨hloops, ?_, fun fuel => rfl⟩
  intro fuel
  unfold Link.Dial
  rw [hloops fuel]

/-- The AwaitRead tail leaves the frames written by the loop body unchanged. -/
theorem awaitPhase_writes_eq (l : Link) (ch : Option Channel) (ar : Channel → Frame → Bool)
    (f : Frame) (ws : List Frame) (acc : List Channel) :
    (awaitPhase l ch ar f ws acc).writes = ws := by
  cases ch with
  | none => rfl
  | some c =>
    by_cases h : ar c f = true
    · simp [awaitPhase, h]
    · cases hd : l.delChan f.id <;> simp [awaitPhase, h, hd]

/-- The AwaitRead tail leaves the accepted channels unchanged. -/
theorem awaitPhase_accepted_eq (l : Link) (ch : Option Channel) (ar : Channel → Frame → Bool)
    (f : Frame) (ws : List Frame) (acc : List Channel) :
    (awaitPhase l ch ar f ws acc).accepted = acc := by
  cases ch with
  | none => rfl
  | some c =>
    by_cases h : ar c f = true
    · simp [awaitPhase, h]
    · cases hd : l.delChan f.id <;> simp [awaitPhase, h, hd]

/-- delChan only clears a slot: a slot live after it was live before. -/
theorem delChan_live (l : Link) (id : Nat) (l2 : Link) (j : Nat)
    (h : l.delChan id = some l2) (h2 : chanLive (l2.chans j) = true) :
    chanLive (l.chans j) = true := by
  unfold Link.delChan at h
  by_cases hb : id < maxUint16
  · rw [if_pos hb] at h
    injection h with h
    subst h
    have he : ({ l with chans := fun j2 => if j2 = id then none else l.chans j2 } : Link).chans j
        = if j = id then none else l.chans j := rfl
    rw [he] at h2
    by_cases hj : j = id
    · rw [if_pos hj] at h2
      simp [chanLive] at h2
    · rwa [if_neg hj] at h2
  · rw [if_neg hb] at h
    exact Option.noConfusion h

/-- setChan only touches the stored slot: a slot live after it is either that
slot or was live before. -/
theorem setChan_live (l : Link) (id : Nat) (ch : Channel) (l2 : Link) (j : Nat)
    (h : l.setChan id ch = some l2) (h2 : chanLive (l2.chans j) = true) :
    j = id ∨ chanLive (l.chans j) = true := by
  unfold Link.setChan at h
  by_cases hb : id < maxUint16
  · rw [if_pos hb] at h
    injection h with h
    subst h
    by_cases hj : j = id
    · exact Or.inl hj
    · have he : ({ l with chans := fun j2 => if j2 = id then some ch else l.chans j2 } : Link).chans j
          = if j = id then some ch else l.chans j := rfl
      rw [he, if_neg hj] at h2
      exact Or.inr h2
  · rw [if_neg hb] at h
    exact Option.noConfusion h

/-- The AwaitRead tail never makes a slot live: liveness after it implies
liveness before. -/
theorem awaitPhase_link_live (l : Link) (ch : Option Channel) (ar : Channel → Frame → Bool)
    (f : Frame) (ws : List Frame) (acc : List Channel) (j : Nat)
    (h : chanLive ((awaitPhase l ch ar f ws acc).link.chans j) = true) :
    chanLive (l.chans j) = true := by
  cases ch with
  | none => exact h
  | some c =>
    by_cases ha : ar c f = true
    · simp only [awaitPhase, ha, if_true] at h
      exact h
    · cases hd : l.delChan f.id with
      | none =>
        simp only [awaitPhase, ha, if_false, hd] at h
        exact h
      | some l2 =>
        simp only [awaitPhase, ha, if_false, hd] at h
        exact delChan_live _ _ _ _ hd h

/-- checkRequest accepts only odd IDs. -/
theorem checkRequest_ok_odd (lp : PubKey) (id : Nat) (p : List Byte)
    (h : (checkRequest lp id p).2 = true) : id % 2 = 1 := by
  unfold checkRequest at h
  by_cases he : isEven id = true
  · rw [if_pos he] at h
    simp at h
  · have h0 : id % 2 ≠ 0 := by
      intro h0
      exact he (by simp [isEven, h0])
    omega

/-- checkRequest on an even ID rejects. -/
theorem checkRequest_even (lp : PubKey) (id : Nat) (p : List Byte) (he : id % 2 = 0) :
    checkRequest lp id p = (zeroPK, false) := by
  unfold checkRequest
  rw [if_pos (show isEven id = true by simp [isEven, he])]

/-- checkRequest on an odd ID with a 64-byte payload whose responder half is
the local key accepts, returning the initiator half. -/
theorem checkRequest_valid (lp : PubKey) (id : Nat) (p : List Byte)
    (hodd : isEven id = false) (hlen : p.length = 64) (hresp : p.drop 32 = lp) :
    checkRequest lp id p = (p.take 32, true) := by
  have hs : splitPKs p = (p.take 32, p.drop 32, true) := by
    unfold splitPKs
    rw [if_pos hlen]
  unfold checkRequest
  rw [if_neg (by simp [hodd]), hs]
  simp [hresp]

/-- getChan on an in-range slot with no live channel: the stale slot value
with ok = false. -/
theorem getChan_dead (l : Link) (id : Nat) (hid : id < maxUint16)
    (hdead : chanLive (l.chans id) = false) :
    l.getChan id = some (l.chans id, false) := by
  unfold Link.getChan
  rw [if_pos hid, hdead]

/-- getChan on an in-range slot holding a live channel. -/
theorem getChan_live (l : Link) (id : Nat) (hid : id < maxUint16)
    (hlive : chanLive (l.chans id) = true) :
    l.getChan id = some (l.chans id, true) := by
  unfold Link.getChan
  rw [if_pos hid, hlive]

/-- delChan in range: the slot is cleared. -/
theorem delChan_eq (l : Link) (id : Nat) (hid : id < maxUint16) :
    l.delChan id = some { l with chans := fun j => if j = id then none else l.chans j } := by
  unfold Link.delChan
  rw [if_pos hid]

/-- setChan in range: the slot is stored. -/
theorem setChan_eq (l : Link) (id : Nat) (ch : Channel) (hid : id < maxUint16) :
    l.setChan id ch = some { l with chans := fun j => if j = id then some ch else l.chans j } := by
  unfold Link.setChan
  rw [if_pos hid]

/-- Serve iteration for a frame whose ID is outside the chans array. -/
theorem serveStep_oob (l : Link) (ar : Channel → Frame → Bool) (f : Frame)
    (hid : ¬f.id < maxUint16) :
    l.serveStep ar f =
      { link := l, writes := [], accepted := [], awaitReadOn := none, panicked := true } := by
  simp [Link.serveStep, Link.getChan, hid]

/-- Serve iteration for a frame whose slot is live: straight to AwaitRead. -/
theorem serveStep_live (l : Link) (ar : Channel → Frame → Bool) (f : Frame)
    (hid : f.id < maxUint16) (hlive : chanLive (l.chans f.id) = true) :
    l.serveStep ar f = awaitPhase l (l.chans f.id) ar f [] [] := by
  simp [Link.serveStep, getChan_live l f.id hid hlive]

/-- Dead-slot Serve iteration on a Close frame: slot cleared, nothing written,
nothing accepted, no fault. -/
theorem serveStep_dead_close (l : Link) (ar : Channel → Frame → Bool) (f : Frame)
    (hid : f.id < maxUint16) (hdead : chanLive (l.chans f.id) = false)
    (hft : f.ft = .Close) :
    l.serveStep ar f =
      { link := { l with chans := fun j => if j = f.id then none else l.chans j },
        writes := [], accepted := [], awaitReadOn := none, panicked := false } := by
  simp [Link.serveStep, getChan_dead l f.id hid hdead, delChan_eq l f.id hid, hft]

/-- Dead-slot Serve iteration on an Accept frame: one Close reply. -/
theorem serveStep_dead_accept (l : Link) (ar : Channel → Frame → Bool) (f : Frame)
    (hid : f.id < maxUint16) (hdead : chanLive (l.chans f.id) = false)
    (hft : f.ft = .Accept) :
    l.serveStep ar f =
      { link := { l with chans := fun j => if j = f.id then none else l.chans j },
        writes := [MakeFrame .Close f.id [0]], accepted := [], awaitReadOn := none,
        panicked := false } := by
  simp [Link.serveStep, getChan_dead l f.id hid hdead, delChan_eq l f.id hid, hft]

/-- Dead-slot Serve iteration on a Data frame: one Close reply. -/
theorem serveStep_dead_data (l : Link) (ar : Channel → Frame → Bool) (f : Frame)
    (hid : f.id < maxUint16) (hdead : chanLive (l.chans f.id) = false)
    (hft : f.ft = .Data) :
    l.serveStep ar f =
      { link := { l with chans := fun j => if j = f.id then none else l.chans j },
        writes := [MakeFrame .Close f.id [0]], accepted := [], awaitReadOn := none,
        panicked := false } := by
  simp [Link.serveStep, getChan_dead l f.id hid hdead, delChan_eq l f.id hid, hft]

/-- Dead-slot Serve iteration on a Request that checkRequest rejects: one
Close reply, no channel created. -/
theorem serveStep_dead_request_invalid (l : Link) (ar : Channel → Frame → Bool) (f : Frame)
    (hid : f.id < maxUint16) (hdead : chanLive (l.chans f.id) = false)
    (hft : f.ft = .Request) (hok : (checkRequest l.localPK f.id f.payload).2 = false) :
    l.serveStep ar f =
      { link := { l with chans := fun j => if j = f.id then none else l.chans j },
        writes := [MakeFrame .Close f.id [0]], accepted := [], awaitReadOn := none,
        panicked := false } := by
  simp [Link.serveStep, getChan_dead l f.id hid hdead, delChan_eq l f.id hid, hft, hok]

/-- Dead-slot Serve iteration on a Request that checkRequest accepts: the new
channel is stored and delivered, and control falls through to the AwaitRead
tail with the stale slot value. -/
theorem serveStep_dead_request_valid (l : Link) (ar : Channel → Frame → Bool) (f : Frame)
    (hid : f.id < maxUint16) (hdead : chanLive (l.chans f.id) = false)
    (hft : f.ft = .Request) (hok : (checkRequest l.localPK f.id f.payload).2 = true) :
    ∃ l2, ({ l with chans := fun j => if j = f.id then none else l.chans j } : Link).setChan f.id
        (NewChannel l.localPK (checkRequest l.localPK f.id f.payload).1 f.id) = some l2 ∧
      l.serveStep ar f = awaitPhase l2 (l.chans f.id) ar f []
        [NewChannel l.localPK (checkRequest l.localPK f.id f.payload).1 f.id] := by
  refine ⟨_, setChan_eq _ _ _ hid, ?_⟩
  simp [Link.serveStep, getChan_dead l f.id hid hdead, delChan_eq l f.id hid,
    setChan_eq ({ l with chans := fun j => if j = f.id then none else l.chans j } : Link) f.id
      (NewChannel l.localPK (checkRequest l.localPK f.id f.payload).1 f.id) hid, hft, hok]

/-- C5 (amended to IDs below 65535; at ID 65535 the table access itself
faults, the C4 defect): for every received frame with in-range ID whose slot
holds no live channel, a Close frame is ignored with no reply and no fault;
an Accept or Data frame is answered with exactly one Close frame; a valid
Request (odd ID, 64-byte payload whose responder key equals the local key)
creates a channel that is delivered to the accept queue; and never more than
one frame is written in response to the received frame. -/
theorem C5_dead_slot_frame_handling (l : Link) (ar : Channel → Frame → Bool) (f : Frame)
    (hid : f.id < maxUint16) (hdead : chanLive (l.chans f.id) = false) :
    (f.ft = .Close → (l.serveStep ar f).writes = [] ∧ (l.serveStep ar f).accepted = [] ∧
      (l.serveStep ar f).panicked = false) ∧
    (f.ft = .Accept → (l.serveStep ar f).writes = [MakeFrame .Close f.id [0]] ∧
      (l.serveStep ar f).accepted = []) ∧
    (f.ft = .Data → (l.serveStep ar f).writes = [MakeFrame .Close f.id [0]] ∧
      (l.serveStep ar f).accepted = []) ∧
    (f.ft = .Request → isEven f.id = false → f.payload.length = 64 →
      f.payload.drop 32 = l.localPK →
      (l.serveStep ar f).accepted = [NewChannel l.localPK (f.payload.take 32) f.id] ∧
      (l.serveStep ar f).writes = []) ∧
    (l.serveStep ar f).writes.length ≤ 1 := by
  refine ⟨?_, ?_, ?_, ?_, ?_⟩
  · intro hft
    rw [serveStep_dead_close l ar f hid hdead hft]
    exact ⟨rfl, rfl, rfl⟩
  · intro hft
    rw [serveStep_dead_accept l ar f hid hdead hft]
    exact ⟨rfl, rfl⟩
  · intro hft
    rw [serveStep_dead_data l ar f hid hdead hft]
    exact ⟨rfl, rfl⟩
  · intro hft hodd hlen hresp
    have hcr := checkRequest_valid l.localPK f.id f.payload hodd hlen hresp
    have hok : (checkRequest l.localPK f.id f.payload).2 = true := by rw [hcr]
    obtain ⟨l2, _, hstep⟩ := serveStep_dead_request_valid l ar f hid hdead hft hok
    rw [hstep, awaitPhase_accepted_eq, awaitPhase_writes_eq, hcr]
    exact ⟨rfl, rfl⟩
  · cases hft : f.ft with
    | Request =>
      cases hok : (checkRequest l.localPK f.id f.payload).2 with
      | true =>
        obtain ⟨l2, _, hstep⟩ := serveStep_dead_request_valid l ar f hid hdead hft hok
        rw [hstep, awaitPhase_writes_eq]
        exact Nat.zero_le 1
      | false =>
        rw [serveStep_dead_request_invalid l ar f hid hdead hft hok]
        exact Nat.le_refl 1
    | Close =>
      rw [serveStep_dead_close l ar f hid hdead hft]
      exact Nat.zero_le 1
    | Accept =>
      rw [serveStep_dead_accept l ar f hid hdead hft]
      exact Nat.le_refl 1
    | Data =>
      rw [serveStep_dead_data l ar f hid hdead hft]
      exact Nat.le_refl 1

/-- Witness for C5 at a concrete Accept frame on a fresh link. -/
theorem C5_witness :
    ((5 : Nat) < maxUint16 ∧ chanLive ((NewLink pkA).chans 5) = false) ∧
    ((NewLink pkA).serveStep arFalse { ft := .Accept, id := 5, payload := [] }).writes =
      [MakeFrame .Close 5 [0]] :=
  ⟨⟨by decide, rfl⟩,
    ((C5_dead_slot_frame_handling (NewLink pkA) arFalse
      { ft := .Accept, id := 5, payload := [] } (by decide) rfl).2.1 rfl).1⟩

/-- Counterexample to C5 as stated: a Close frame with channel ID 65535 has no
live channel in the table, yet the Serve iteration is not an ignore -- the
table access at 65535 faults (the chans array has only 65535 slots). -/
theorem C5_counterexample_close_65535_panics :
    ((NewLink pkA).serveStep arFalse { ft := .Close, id := 65535, payload := [] }).panicked
      = true ∧
    ((NewLink pkA).serveStep arFalse { ft := .Close, id := 65535, payload := [] }).writes = [] :=
  ⟨rfl, rfl⟩

/-- Allocation parity is preserved: from an even cursor, addChan only ever
returns an even channel ID and leaves the cursor even (the scan steps by 2
with uint16 wrap). -/
theorem addChanLoop_even (pk : PubKey) :
    ∀ (fuel : Nat) (l : Link) (ctx : Nat → Bool) (ch : Channel) (l2 : Link),
      l.nextID % 2 = 0 → l.addChanLoop ctx pk fuel = .ok ch l2 →
      ch.id % 2 = 0 ∧ l2.nextID % 2 = 0 := by
  intro fuel
  induction fuel with
  | zero =>
    intro l ctx ch l2 _ h
    exact AddChanResult.noConfusion h
  | succ n ih =>
    intro l ctx ch l2 he h
    unfold Link.addChanLoop at h
    by_cases h1 : l.nextID < maxUint16
    · rw [if_pos h1] at h
      by_cases h2 : chanLive (l.chans l.nextID) = true
      · rw [if_pos h2] at h
        by_cases h3 : ctx 0 = true
        · rw [if_pos h3] at h
          exact AddChanResult.noConfusion h
        · rw [if_neg h3] at h
          refine ih _ _ ch l2 ?_ h
          show (l.nextID + 2) % 65536 % 2 = 0
          omega
      · rw [if_neg h2] at h
        injection h with hch hl2
        subst hch
        subst hl2
        refine ⟨he, ?_⟩
        show (l.nextID + 2) % 65536 % 2 = 0
        omega
    · rw [if_neg h1] at h
      exact AddChanResult.noConfusion h

/-- A Serve iteration never makes a slot live except by installing an
accepted Request channel at its (necessarily odd) ID: a slot live after the
iteration was live before it, or its index is odd. -/
theorem serveStep_installs_only_odd (l : Link) (ar : Channel → Frame → Bool) (f : Frame)
    (j : Nat) (h : chanLive ((l.serveStep ar f).link.chans j) = true) :
    chanLive (l.chans j) = true ∨ j % 2 = 1 := by
  by_cases hid : f.id < maxUint16
  · by_cases hlive : chanLive (l.chans f.id) = true
    · rw [serveStep_live l ar f hid hlive] at h
      exact Or.inl (awaitPhase_link_live _ _ _ _ _ _ _ h)
    · have hdead : chanLive (l.chans f.id) = false := by
        simp only [Bool.not_eq_true] at hlive
        exact hlive
      have hdel : l.delChan f.id =
          some { l with chans := fun j2 => if j2 = f.id then none else l.chans j2 } :=
        delChan_eq l f.id hid
      cases hft : f.ft with
      | Request =>
        cases hok : (checkRequest l.localPK f.id f.payload).2 with
        | true =>
          obtain ⟨l2, hs, hstep⟩ := serveStep_dead_request_valid l ar f hid hdead hft hok
          rw [hstep] at h
          have h2 := awaitPhase_link_live _ _ _ _ _ _ _ h
          rcases setChan_live _ _ _ _ _ hs h2 with hj | h3
          · refine Or.inr ?_
            rw [hj]
            exact checkRequest_ok_odd _ _ _ hok
          · exact Or.inl (delChan_live _ _ _ _ hdel h3)
        | false =>
          rw [serveStep_dead_request_invalid l ar f hid hdead hft hok] at h
          exact Or.inl (delChan_live _ _ _ _ hdel h)
      | Close =>
        rw [serveStep_dead_close l ar f hid hdead hft] at h
        exact Or.inl (delChan_live _ _ _ _ hdel h)
      | Accept =>
        rw [serveStep_dead_accept l ar f hid hdead hft] at h
        exact Or.inl (delChan_live _ _ _ _ hdel h)
      | Data =>
        rw [serveStep_dead_data l ar f hid hdead hft] at h
        exact Or.inl (delChan_live _ _ _ _ hdel h)
  · rw [serveStep_oob l ar f hid] at h
    exact Or.inl h

/-- An inbound Request carrying an even 16-bit ID at a dead slot: checkRequest
rejects it, one Close is written, no channel is accepted. -/
theorem serveStep_dead_request_even (l : Link) (ar : Channel → Frame → Bool) (f : Frame)
    (hft : f.ft = .Request) (he : f.id % 2 = 0) (h16 : f.id < 65536)
    (hdead : chanLive (l.chans f.id) = false) :
    (l.serveStep ar f).writes = [MakeFrame .Close f.id [0]] ∧
    (l.serveStep ar f).accepted = [] := by
  have hid : f.id < maxUint16 := by
    unfold maxUint16
    omega
  have hok : (checkRequest l.localPK f.id f.payload).2 = false := by
    rw [checkRequest_even l.localPK f.id f.payload he]
  rw [serveStep_dead_request_invalid l ar f hid hdead hft hok]
  exact ⟨rfl, rfl⟩

/-- C7: IDs allocated by the client (initiator) side are even -- a fresh
cursor of a fresh link is 0 and the addChan scan preserves evenness of cursor and
allocated ID -- and an inbound Request carrying an even 16-bit ID at a slot
with no live channel is rejected with a Close reply instead of creating a
channel; moreover a Serve iteration only ever makes a slot live at an odd
index, so even slots never hold live channels on the client side. -/
theorem C7_parity :
    (∀ (l : Link) (ctx : Nat → Bool) (pk : PubKey) (fuel : Nat) (ch : Channel) (l2 : Link),
      l.nextID % 2 = 0 → l.addChanLoop ctx pk fuel = .ok ch l2 →
      ch.id % 2 = 0 ∧ l2.nextID % 2 = 0) ∧
    (∀ r : PubKey, (NewLink r).nextID = 0) ∧
    (∀ (l : Link) (ar : Channel → Frame → Bool) (f : Frame),
      f.ft = .Request → f.id % 2 = 0 → f.id < 65536 → chanLive (l.chans f.id) = false →
      (l.serveStep ar f).writes = [MakeFrame .Close f.id [0]] ∧
      (l.serveStep ar f).accepted = []) ∧
    (∀ (l : Link) (ar : Channel → Frame → Bool) (f : Frame) (j : Nat),
      chanLive ((l.serveStep ar f).link.chans j) = true →
      chanLive (l.chans j) = true ∨ j % 2 = 1) :=
  ⟨fun l ctx pk fuel ch l2 he h => addChanLoop_even pk fuel l ctx ch l2 he h,
   fun _ => rfl,
   fun l ar f hft he h16 hdead => serveStep_dead_request_even l ar f hft he h16 hdead,
   fun l ar f j h => serveStep_installs_only_odd l ar f j h⟩

/-- Witness for C7: a concrete allocation on a fresh link yields the even ID
0, and a concrete even-ID Request (ID 2) at a dead slot of a fresh link draws
one Close reply. -/
theorem C7_witness :
    ((NewLink pkA).nextID % 2 = 0 ∧
      (NewLink pkA).addChanLoop ctxNever pkB 1 =
        .ok (NewChannel zeroPK pkB 0) { NewLink pkA with nextID := 2 } ∧
      (NewChannel zeroPK pkB 0).id % 2 = 0) ∧
    ((Frame.mk .Request 2 []).ft = .Request ∧ (2 : Nat) % 2 = 0 ∧ (2 : Nat) < 65536 ∧
      chanLive ((NewLink pkA).chans 2) = false) ∧
    ((NewLink pkA).serveStep arFalse (Frame.mk .Request 2 [])).writes =
      [MakeFrame .Close 2 [0]] :=
  ⟨⟨rfl, rfl,
    (C7_parity.1 (NewLink pkA) ctxNever pkB 1 (NewChannel zeroPK pkB 0)
      { NewLink pkA with nextID := 2 } rfl rfl).1⟩,
   ⟨rfl, rfl, by decide, rfl⟩,
   (C7_parity.2.2.1 (NewLink pkA) arFalse (Frame.mk .Request 2 []) rfl rfl (by decide) rfl).1⟩

end Skymsg
